import Mathlib

/-!
Verification of the go-argon password-hashing library (`argon.go`).

The development shallowly embeds the Go source: bytes are `Nat` values
below 256, Go strings are Lean `String`s, and the external collaborators
(`golang.org/x/crypto/argon2`, `crypto/rand`) are passed in as explicit
function and salt arguments.  The standard-library routines the source
calls (`strings.Split`, `fmt.Sscanf`, `encoding/base64` with
`RawStdEncoding`) are modelled from their documented behaviour, since
they are not part of the repository.
-/

namespace GoArgon

instance {ε α : Type} [DecidableEq ε] [DecidableEq α] : DecidableEq (Except ε α) := fun a b =>
  match a, b with
  | .error e, .error f => if h : e = f then .isTrue (by rw [h]) else .isFalse (by simp [h])
  | .ok x, .ok y => if h : x = y then .isTrue (by rw [h]) else .isFalse (by simp [h])
  | .error _, .ok _ => .isFalse (by simp)
  | .ok _, .error _ => .isFalse (by simp)

/-! ## Model of `strings.Split` with the one-character separator `$` -/

/-- Model of Go `strings.Split(s, sep)` for a single-character separator:
splitting the empty string yields `[[]]`, and each separator occurrence
starts a new segment. -/
def goSplit (sep : Char) : List Char → List (List Char)
  | [] => [[]]
  | c :: cs =>
    match goSplit sep cs with
    | [] => [[]]
    | h :: t => if c = sep then [] :: h :: t else (c :: h) :: t

theorem goSplit_ne_nil (sep : Char) (l : List Char) : goSplit sep l ≠ [] := by
  induction l with
  | nil => simp [goSplit]
  | cons c cs ih =>
    simp only [goSplit]
    rcases h : goSplit sep cs with _ | ⟨h0, t⟩
    · simp
    · dsimp only
      split <;> simp

theorem goSplit_sep_cons (sep : Char) (ys : List Char) :
    goSplit sep (sep :: ys) = [] :: goSplit sep ys := by
  simp only [goSplit]
  rcases h : goSplit sep ys with _ | ⟨h0, t⟩
  · exact absurd h (goSplit_ne_nil sep ys)
  · simp

theorem goSplit_append_sep (sep : Char) (xs ys : List Char) (hxs : ∀ c ∈ xs, c ≠ sep) :
    goSplit sep (xs ++ sep :: ys) = xs :: goSplit sep ys := by
  induction xs with
  | nil => simpa using goSplit_sep_cons sep ys
  | cons x xs ih =>
    have hx : x ≠ sep := hxs x (by simp)
    have ih' := ih (fun c hc => hxs c (by simp [hc]))
    have hlist : xs.append (sep :: ys) = xs ++ sep :: ys := rfl
    simp only [List.cons_append, goSplit]
    rw [hlist, ih']
    simp [hx]

theorem goSplit_no_sep (sep : Char) (xs : List Char) (hxs : ∀ c ∈ xs, c ≠ sep) :
    goSplit sep xs = [xs] := by
  induction xs with
  | nil => rfl
  | cons x xs ih =>
    have hx : x ≠ sep := hxs x (by simp)
    have ih' := ih (fun c hc => hxs c (by simp [hc]))
    simp [goSplit, ih', hx]

example : goSplit '$' "".data = [[]] := by decide
example : goSplit '$' "$a$b".data = [[], ['a'], ['b']] := by decide

/-! ## Model of `fmt.Sscanf`

The source calls `fmt.Sscanf(vals[2], "v=%d", &version)` (an `int`) and
`fmt.Sscanf(vals[3], "m=%d,t=%d,p=%d", &p.Memory, &p.Iterations,
&p.Parallelism)` (`uint32`, `uint32`, `uint8`) and only inspects the
returned error.  Modelled from the documented behaviour of the `fmt`
scanner: literal format characters must match the input exactly, a `%d`
verb first skips whitespace (erroring on a newline, since newlines in the
input must match newlines in the format), then reads an optional sign
(signed targets only) and a non-empty run of ASCII decimal digits,
failing on overflow of the target's width.  Input remaining after the
format is exhausted is ignored. -/

/-- Whitespace table of the `fmt` scanner. -/
def isGoSpace (c : Char) : Bool :=
  let n := c.toNat
  (0x09 ≤ n && n ≤ 0x0d) || n = 0x20 || n = 0x85 || n = 0xa0 || n = 0x1680 ||
    (0x2000 ≤ n && n ≤ 0x200a) || n = 0x2028 || n = 0x2029 || n = 0x202f ||
    n = 0x205f || n = 0x3000

/-- `SkipSpace` of the `fmt` scanner in `Sscanf` mode: skips whitespace but
fails on a (bare or CR-prefixed) newline, which may not appear where the
format has none. -/
def skipSpace : List Char → Except Unit (List Char)
  | [] => .ok []
  | c :: cs =>
    if c = '\n' then .error ()
    else if c = '\r' then
      match cs with
      | '\n' :: _ => .error ()
      | _ => skipSpace cs
    else if isGoSpace c then skipSpace cs
    else .ok (c :: cs)

/-- ASCII decimal digit test (the `%d` verb scans over `"0123456789"`). -/
def isDigit10 (c : Char) : Bool := 48 ≤ c.toNat && c.toNat ≤ 57

/-- Numeric value of a run of ASCII digits. -/
def digitsVal (ds : List Char) : Nat :=
  ds.foldl (fun a c => 10 * a + (c.toNat - 48)) 0

/-- Scan a non-empty run of decimal digits; the rest of the input is
returned unconsumed. -/
def scanDigits (cs : List Char) : Except Unit (Nat × List Char) :=
  let ds := cs.takeWhile isDigit10
  if ds.isEmpty then .error ()
  else .ok (digitsVal ds, cs.dropWhile isDigit10)

/-- `%d` scanning into an unsigned integer of bit width `width`
(no sign accepted, overflow is an error). -/
def scanUnsigned (width : Nat) (cs : List Char) : Except Unit (Nat × List Char) := do
  let cs ← skipSpace cs
  let (n, rest) ← scanDigits cs
  if n < 2 ^ width then .ok (n, rest) else .error ()

/-- `%d` scanning into a 64-bit signed integer (optional sign accepted). -/
def scanSigned (cs : List Char) : Except Unit (Int × List Char) := do
  let cs ← skipSpace cs
  match cs with
  | '-' :: rest => do
      let (n, r) ← scanDigits rest
      if n ≤ 2 ^ 63 then .ok (-(n : Int), r) else .error ()
  | '+' :: rest => do
      let (n, r) ← scanDigits rest
      if n < 2 ^ 63 then .ok ((n : Int), r) else .error ()
  | _ => do
      let (n, r) ← scanDigits cs
      if n < 2 ^ 63 then .ok ((n : Int), r) else .error ()

/-- Match one literal format character against the input. -/
def expectChar (c : Char) : List Char → Except Unit (List Char)
  | [] => .error ()
  | x :: xs => if x = c then .ok xs else .error ()

/-- `fmt.Sscanf(s, "v=%d", &version)` with `version : int`; the result is
the scanned version on success. -/
def sscanfVersion (cs : List Char) : Except Unit Int := do
  let cs ← expectChar 'v' cs
  let cs ← expectChar '=' cs
  let (v, _) ← scanSigned cs
  .ok v

/-- `fmt.Sscanf(s, "m=%d,t=%d,p=%d", &m, &t, &p)` with
`m t : uint32`, `p : uint8`. -/
def sscanfParams (cs : List Char) : Except Unit (Nat × Nat × Nat) := do
  let cs ← expectChar 'm' cs
  let cs ← expectChar '=' cs
  let (m, cs) ← scanUnsigned 32 cs
  let cs ← expectChar ',' cs
  let cs ← expectChar 't' cs
  let cs ← expectChar '=' cs
  let (t, cs) ← scanUnsigned 32 cs
  let cs ← expectChar ',' cs
  let cs ← expectChar 'p' cs
  let cs ← expectChar '=' cs
  let (p, _) ← scanUnsigned 8 cs
  .ok (m, t, p)

example : sscanfVersion "v=19".data = .ok 19 := by decide
example : sscanfVersion "v=19x".data = .ok 19 := by decide
example : sscanfVersion "x=19".data = .error () := by decide
example : sscanfVersion "v=".data = .error () := by decide
example : sscanfParams "m=65536,t=1,p=4".data = .ok (65536, 1, 4) := by decide
example : sscanfParams "m=1,t=1,p=1x".data = .ok (1, 1, 1) := by decide
example : sscanfParams "m=1,t=1,p=256".data = .error () := by decide
example : sscanfParams "m=-1,t=1,p=1".data = .error () := by decide

/-! ## Model of `encoding/base64` with `RawStdEncoding`

The standard alphabet without padding.  Encoding maps each 3-byte group
to 4 characters, a trailing 2-byte group to 3 characters and a trailing
1-byte group to 2 characters.  Decoding ignores `\r` and `\n`, rejects
every character outside the alphabet (including `=`, which never occurs
with padding disabled), and rejects an input whose length is congruent
to 1 modulo 4. -/

def b64Alphabet : List Char :=
  "ABCDEFGHIJKLMNOPQRSTUVWXYZabcdefghijklmnopqrstuvwxyz0123456789+/".data

/-- Character for a six-bit value. -/
def b64Char (n : Nat) : Char := b64Alphabet.getD n 'A'

/-- Decode map: position of a character in the alphabet. -/
def b64Idx (c : Char) : Option Nat := b64Alphabet.findIdx? (fun x => x = c)

/-- `base64.RawStdEncoding.EncodeToString` over a byte list. -/
def b64EncodeList : List Nat → List Char
  | [] => []
  | [a] => [b64Char (a / 4), b64Char (a % 4 * 16)]
  | [a, b] => [b64Char (a / 4), b64Char (a % 4 * 16 + b / 16), b64Char (b % 16 * 4)]
  | a :: b :: c :: rest =>
      b64Char (a / 4) :: b64Char (a % 4 * 16 + b / 16) ::
        b64Char (b % 16 * 4 + c / 64) :: b64Char (c % 64) :: b64EncodeList rest

/-- Decode after newline filtering: quanta of four characters, with a
final quantum of two or three characters allowed, one rejected. -/
def b64DecodeCore : List Char → Except Unit (List Nat)
  | [] => .ok []
  | [_] => .error ()
  | [c1, c2] =>
      match b64Idx c1, b64Idx c2 with
      | some s1, some s2 => .ok [s1 * 4 + s2 / 16]
      | _, _ => .error ()
  | [c1, c2, c3] =>
      match b64Idx c1, b64Idx c2, b64Idx c3 with
      | some s1, some s2, some s3 => .ok [s1 * 4 + s2 / 16, s2 % 16 * 16 + s3 / 4]
      | _, _, _ => .error ()
  | c1 :: c2 :: c3 :: c4 :: rest =>
      match b64Idx c1, b64Idx c2, b64Idx c3, b64Idx c4, b64DecodeCore rest with
      | some s1, some s2, some s3, some s4, .ok tl =>
          .ok ((s1 * 4 + s2 / 16) :: (s2 % 16 * 16 + s3 / 4) :: (s3 % 4 * 64 + s4) :: tl)
      | _, _, _, _, _ => .error ()

/-- `base64.RawStdEncoding.DecodeString`: `\r` and `\n` are ignored,
everything else goes through the quantum decoder. -/
def b64Decode (cs : List Char) : Except Unit (List Nat) :=
  b64DecodeCore (cs.filter (fun c => !(c = '\r' || c = '\n')))

theorem b64Char_spec : ∀ n < 64,
    b64Idx (b64Char n) = some n ∧ b64Char n ≠ '$' ∧
      b64Char n ≠ '\r' ∧ b64Char n ≠ '\n' := by decide

theorem b64EncodeList_mem {l : List Nat} (hl : ∀ b ∈ l, b < 256) :
    ∀ c ∈ b64EncodeList l, ∃ n, n < 64 ∧ c = b64Char n := by
  induction l using b64EncodeList.induct with
  | case1 => simp [b64EncodeList]
  | case2 a =>
    have ha : a < 256 := hl a (by simp)
    intro c hc
    simp only [b64EncodeList, List.mem_cons, List.mem_singleton, List.not_mem_nil,
      or_false] at hc
    rcases hc with rfl | rfl
    · exact ⟨a / 4, by omega, rfl⟩
    · exact ⟨a % 4 * 16, by omega, rfl⟩
  | case3 a b =>
    have ha : a < 256 := hl a (by simp)
    have hb : b < 256 := hl b (by simp)
    intro c hc
    simp only [b64EncodeList, List.mem_cons, List.not_mem_nil, or_false] at hc
    rcases hc with rfl | rfl | rfl
    · exact ⟨a / 4, by omega, rfl⟩
    · exact ⟨a % 4 * 16 + b / 16, by omega, rfl⟩
    · exact ⟨b % 16 * 4, by omega, rfl⟩
  | case4 a b c rest ih =>
    have ha : a < 256 := hl a (by simp)
    have hb : b < 256 := hl b (by simp)
    have hc : c < 256 := hl c (by simp)
    have hrest : ∀ x ∈ rest, x < 256 := fun x hx => hl x (by simp [hx])
    intro x hx
    simp only [b64EncodeList, List.mem_cons] at hx
    rcases hx with rfl | rfl | rfl | rfl | hx
    · exact ⟨a / 4, by omega, rfl⟩
    · exact ⟨a % 4 * 16 + b / 16, by omega, rfl⟩
    · exact ⟨b % 16 * 4 + c / 64, by omega, rfl⟩
    · exact ⟨c % 64, by omega, rfl⟩
    · exact ih hrest x hx

theorem b64DecodeCore_encode {l : List Nat} (hl : ∀ b ∈ l, b < 256) :
    b64DecodeCore (b64EncodeList l) = .ok l := by
  induction l using b64EncodeList.induct with
  | case1 => rfl
  | case2 a =>
    have ha : a < 256 := hl a (by simp)
    have h1 := (b64Char_spec (a / 4) (by omega)).1
    have h2 := (b64Char_spec (a % 4 * 16) (by omega)).1
    have e1 : a / 4 * 4 + a % 4 * 16 / 16 = a := by omega
    simp only [b64EncodeList, b64DecodeCore, h1, h2, e1]
  | case3 a b =>
    have ha : a < 256 := hl a (by simp)
    have hb : b < 256 := hl b (by simp)
    have h1 := (b64Char_spec (a / 4) (by omega)).1
    have h2 := (b64Char_spec (a % 4 * 16 + b / 16) (by omega)).1
    have h3 := (b64Char_spec (b % 16 * 4) (by omega)).1
    have e1 : a / 4 * 4 + (a % 4 * 16 + b / 16) / 16 = a := by omega
    have e2 : (a % 4 * 16 + b / 16) % 16 * 16 + b % 16 * 4 / 4 = b := by omega
    simp only [b64EncodeList, b64DecodeCore, h1, h2, h3, e1, e2]
  | case4 a b c rest ih =>
    have ha : a < 256 := hl a (by simp)
    have hb : b < 256 := hl b (by simp)
    have hc : c < 256 := hl c (by simp)
    have hrest : ∀ x ∈ rest, x < 256 := fun x hx => hl x (by simp [hx])
    have h1 := (b64Char_spec (a / 4) (by omega)).1
    have h2 := (b64Char_spec (a % 4 * 16 + b / 16) (by omega)).1
    have h3 := (b64Char_spec (b % 16 * 4 + c / 64) (by omega)).1
    have h4 := (b64Char_spec (c % 64) (by omega)).1
    have e1 : a / 4 * 4 + (a % 4 * 16 + b / 16) / 16 = a := by omega
    have e2 : (a % 4 * 16 + b / 16) % 16 * 16 + (b % 16 * 4 + c / 64) / 4 = b := by omega
    have e3 : (b % 16 * 4 + c / 64) % 4 * 64 + c % 64 = c := by omega
    simp only [b64EncodeList, b64DecodeCore, h1, h2, h3, h4, ih hrest, e1, e2, e3]

theorem b64Decode_encode {l : List Nat} (hl : ∀ b ∈ l, b < 256) :
    b64Decode (b64EncodeList l) = .ok l := by
  have hfilter : (b64EncodeList l).filter (fun c => !(c = '\r' || c = '\n')) =
      b64EncodeList l := by
    rw [List.filter_eq_self]
    intro c hc
    obtain ⟨n, hn, rfl⟩ := b64EncodeList_mem hl c hc
    have := b64Char_spec n hn
    simp [this.2.2.1, this.2.2.2]
  rw [b64Decode, hfilter]
  exact b64DecodeCore_encode hl

theorem b64EncodeList_no_dollar {l : List Nat} (hl : ∀ b ∈ l, b < 256) :
    ∀ c ∈ b64EncodeList l, c ≠ '$' := by
  intro c hc
  obtain ⟨n, hn, rfl⟩ := b64EncodeList_mem hl c hc
  exact (b64Char_spec n hn).2.1

example : b64EncodeList [0] = ['A', 'A'] := by decide
example : b64Decode "AA".data = .ok [0] := by decide
example : b64Decode "invalid!!!base64".data = .error () := by decide
example : b64Decode "dGVzdGhhc2g".data =
    .ok [116, 101, 115, 116, 104, 97, 115, 104] := by decide

/-! ## Model of `fmt.Sprintf` `%d` rendering of an unsigned value

Decimal, no sign, no leading zeros (`0` renders as `"0"`). -/

/-- ASCII character of a decimal digit value. -/
def decDigit (r : Nat) : Char := "0123456789".data.getD r '0'

/-- Fuel-driven digit emitter: `fuel > n` guarantees completion. -/
def natToDecCore : Nat → Nat → List Char → List Char
  | 0, _, acc => acc
  | fuel + 1, n, acc =>
    if n < 10 then decDigit n :: acc
    else natToDecCore fuel (n / 10) (decDigit (n % 10) :: acc)

/-- Decimal rendering of a natural number, as `%d` prints it. -/
def natToDec (n : Nat) : List Char := natToDecCore (n + 1) n []

theorem natToDecCore_fuel :
    ∀ f₁ f₂ n acc, n < f₁ → n < f₂ →
      natToDecCore f₁ n acc = natToDecCore f₂ n acc := by
  intro f₁
  induction f₁ with
  | zero => omega
  | succ f ih =>
    intro f₂ n acc h₁ h₂
    match f₂, h₂ with
    | g + 1, _ =>
      simp only [natToDecCore]
      split
      · rfl
      · exact ih g (n / 10) _ (by omega) (by omega)

theorem natToDec_step {n : Nat} (hn : 10 ≤ n) :
    natToDec n = natToDec (n / 10) ++ [decDigit (n % 10)] := by
  have h1 : natToDec n = natToDecCore n (n / 10) [decDigit (n % 10)] := by
    simp only [natToDec, natToDecCore]
    split
    · omega
    · rfl
  rw [h1, natToDecCore_fuel n (n / 10 + 1) (n / 10) _ (by omega) (by omega)]
  have : ∀ f m acc, m < f → natToDecCore f m acc = natToDecCore f m [] ++ acc := by
    intro f
    induction f with
    | zero => omega
    | succ g ih =>
      intro m acc hm
      simp only [natToDecCore]
      split
      · simp
      · rw [ih (m / 10) _ (by omega), ih (m / 10) [decDigit (m % 10)] (by omega),
          List.append_assoc]
        rfl
  exact this (n / 10 + 1) (n / 10) [decDigit (n % 10)] (by omega)

theorem decDigit_spec : ∀ r < 10,
    isDigit10 (decDigit r) = true ∧ (decDigit r).toNat - 48 = r ∧
      decDigit r ≠ '$' := by decide

theorem natToDec_digits (n : Nat) : ∀ c ∈ natToDec n, isDigit10 c = true := by
  induction n using Nat.strong_induction_on with
  | _ n ih =>
    by_cases hn : n < 10
    · intro c hc
      simp only [natToDec, natToDecCore, if_pos hn] at hc
      simp only [List.mem_singleton] at hc
      subst hc
      exact (decDigit_spec n hn).1
    · rw [natToDec_step (by omega)]
      intro c hc
      rcases List.mem_append.mp hc with h | h
      · exact ih (n / 10) (by omega) c h
      · simp only [List.mem_singleton] at h
        subst h
        exact (decDigit_spec (n % 10) (by omega)).1

theorem natToDec_ne_nil (n : Nat) : natToDec n ≠ [] := by
  by_cases hn : n < 10
  · simp [natToDec, natToDecCore, if_pos hn]
  · rw [natToDec_step (by omega)]
    simp

theorem natToDec_no_dollar (n : Nat) : ∀ c ∈ natToDec n, c ≠ '$' := by
  intro c hc heq
  have := natToDec_digits n c hc
  subst heq
  simp [isDigit10] at this

theorem digitsVal_append (xs ys : List Char) :
    digitsVal (xs ++ ys) = ys.foldl (fun a c => 10 * a + (c.toNat - 48)) (digitsVal xs) := by
  simp [digitsVal, List.foldl_append]

theorem digitsVal_natToDec (n : Nat) : digitsVal (natToDec n) = n := by
  induction n using Nat.strong_induction_on with
  | _ n ih =>
    by_cases hn : n < 10
    · simp only [natToDec, natToDecCore, if_pos hn]
      have := (decDigit_spec n hn).2.1
      have hge : 48 ≤ (decDigit n).toNat := by
        have := (decDigit_spec n hn).1
        simp only [isDigit10, Bool.and_eq_true, decide_eq_true_eq] at this
        omega
      simp only [digitsVal, List.foldl_cons, List.foldl_nil]
      omega
    · rw [natToDec_step (by omega), digitsVal_append]
      simp only [List.foldl_cons, List.foldl_nil, ih (n / 10) (by omega)]
      have := (decDigit_spec (n % 10) (by omega)).2.1
      omega

theorem takeWhile_append_all {p : Char → Bool} {xs ys : List Char}
    (hxs : ∀ c ∈ xs, p c = true) (hys : ∀ c, ys.head? = some c → p c = false) :
    (xs ++ ys).takeWhile p = xs ∧ (xs ++ ys).dropWhile p = ys := by
  induction xs with
  | nil =>
    simp only [List.nil_append]
    cases ys with
    | nil => simp
    | cons y ys =>
      have := hys y rfl
      simp [List.takeWhile, List.dropWhile, this]
  | cons x xs ih =>
    have hx : p x = true := hxs x (by simp)
    have ih' := ih (fun c hc => hxs c (by simp [hc]))
    simp [List.takeWhile, List.dropWhile, hx, ih'.1, ih'.2]

/-! ## The library itself (`argon.go`)

Error sentinels, `Params`, `DefaultParams`, the encoder inlined in
`HashWithParams`, `decodeHash`, `HashWithParams` and `Verify`.  The two
variants of the external KDF (`argon2.Key` for argon2i, `argon2.IDKey`
for argon2id) are passed as function arguments with the argument order
of the Go calls (password, salt, iterations, memory, parallelism,
keyLength); the random salt produced by `crypto/rand` inside
`HashWithParams` is likewise passed in explicitly. -/

/-- The distinct error values of the package: the three sentinels plus the
propagated `encoding/base64` decode failure. -/
inductive GoErr where
  | invalidHash
  | incompatibleVersion
  | unsupportedMode
  | base64Error
deriving DecidableEq, Repr

/-- `ModeArgon2id`, the default mode. -/
def ModeArgon2id : String := "argon2id"

/-- `ModeArgon2i`. -/
def ModeArgon2i : String := "argon2i"

/-- `argon2.Version` of the external KDF package. -/
def argon2Version : Int := 19

/-- `Params` of `argon.go` (`Memory`, `Iterations` are `uint32`,
`Parallelism` is `uint8`, `SaltLength`, `KeyLength` are `uint32`,
`Mode` a string). -/
structure Params where
  Memory : Nat
  Iterations : Nat
  Parallelism : Nat
  SaltLength : Nat
  KeyLength : Nat
  Mode : String
deriving DecidableEq, Repr

def DefaultMemory : Nat := 64 * 1024
def DefaultIterations : Nat := 1
def DefaultParallelism : Nat := 4
def DefaultSaltLength : Nat := 16
def DefaultKeyLength : Nat := 32

/-- `DefaultParams`, as a function of the detected core count
(`runtime.NumCPU()`, always at least 1): the core count is converted with
`uint8(...)`, hence reduced modulo 256, then capped at 4. -/
def DefaultParams (numCPU : Nat) : Params :=
  let p := numCPU % 256
  let p := if p > DefaultParallelism then DefaultParallelism else p
  { Memory := DefaultMemory, Iterations := DefaultIterations, Parallelism := p,
    SaltLength := DefaultSaltLength, KeyLength := DefaultKeyLength,
    Mode := ModeArgon2id }

/-- Type of a KDF variant: password, salt, iterations, memory,
parallelism, key length ↦ derived key bytes. -/
abbrev KDF := String → List Nat → Nat → Nat → Nat → Nat → List Nat

/-- The `m=%d,t=%d,p=%d` parameter segment as `fmt.Sprintf` renders it. -/
def paramSeg (memory iterations parallelism : Nat) : List Char :=
  'm' :: '=' :: (natToDec memory ++
    ',' :: 't' :: '=' :: (natToDec iterations ++
      ',' :: 'p' :: '=' :: natToDec parallelism))

/-- The encoder of `HashWithParams`:
`fmt.Sprintf("$%s$v=%d$m=%d,t=%d,p=%d$%s$%s", mode, argon2.Version,
p.Memory, p.Iterations, p.Parallelism, b64Salt, b64Hash)` with the two
byte strings base64-encoded (`RawStdEncoding`). -/
def encodeHash (mode : String) (memory iterations parallelism : Nat)
    (salt hash : List Nat) : String :=
  ⟨'$' :: (mode.data ++ '$' :: (('v' :: '=' :: natToDec 19) ++
    '$' :: (paramSeg memory iterations parallelism ++
      '$' :: (b64EncodeList salt ++ '$' :: b64EncodeList hash))))⟩

/-- The body of `decodeHash` once the input has split into exactly six
segments `vals[0] … vals[5]` (segment 0 is never consulted): version
scan, version check, mode check, parameter scan, parameter validation,
then the two base64 payloads. -/
def decodeSegs (v1 v2 v3 v4 v5 : List Char) :
    Except GoErr (Params × List Nat × List Nat) :=
  match sscanfVersion v2 with
  | .error _ => .error .invalidHash
  | .ok version =>
    if version ≠ argon2Version then .error .incompatibleVersion
    else
      let mode : String := ⟨v1⟩
      if mode ≠ ModeArgon2id ∧ mode ≠ ModeArgon2i then .error .unsupportedMode
      else
        match sscanfParams v3 with
        | .error _ => .error .invalidHash
        | .ok (m, t, par) =>
          if m < 1 ∨ t < 1 ∨ par < 1 then .error .invalidHash
          else
            match b64Decode v4 with
            | .error _ => .error .base64Error
            | .ok salt =>
              match b64Decode v5 with
              | .error _ => .error .base64Error
              | .ok hash =>
                .ok ({ Memory := m, Iterations := t, Parallelism := par,
                       SaltLength := salt.length, KeyLength := hash.length,
                       Mode := mode }, salt, hash)

/-- `decodeHash`: split on `$`, require exactly six segments, then
decode them. -/
def decodeHash (encodedHash : String) :
    Except GoErr (Params × List Nat × List Nat) :=
  match goSplit '$' encodedHash.data with
  | [_, v1, v2, v3, v4, v5] => decodeSegs v1 v2 v3 v4 v5
  | _ => .error .invalidHash

/-- The mode-defaulting step shared by `HashWithParams` and `Verify`:
an unset (empty) mode falls back to argon2id. -/
def resolveMode (mode : String) : String :=
  if mode = "" then ModeArgon2id else mode

/-- `HashWithParams` with the KDF variants and the generated salt passed
in: resolve the mode, derive the key with the matching variant (unknown
modes fail with `UnsupportedMode`), then encode. -/
def HashWithParams (argonKey argonIDKey : KDF) (salt : List Nat)
    (password : String) (p : Params) : Except GoErr String :=
  let mode := resolveMode p.Mode
  if mode = ModeArgon2i then
    .ok (encodeHash mode p.Memory p.Iterations p.Parallelism salt
      (argonKey password salt p.Iterations p.Memory p.Parallelism p.KeyLength))
  else if mode = ModeArgon2id then
    .ok (encodeHash mode p.Memory p.Iterations p.Parallelism salt
      (argonIDKey password salt p.Iterations p.Memory p.Parallelism p.KeyLength))
  else .error .unsupportedMode

/-- `Verify`: decode, recompute the key with the decoded parameters and
the matching KDF variant, then compare (the constant-time comparison is
equality of the byte strings; `ConstantTimeCompare` returns 1 exactly on
equal slices). -/
def Verify (argonKey argonIDKey : KDF) (password encodedHash : String) :
    Bool × Option GoErr :=
  match decodeHash encodedHash with
  | .error err => (false, some err)
  | .ok (p, salt, hash) =>
    let mode := resolveMode p.Mode
    if mode = ModeArgon2i then
      (decide (argonKey password salt p.Iterations p.Memory p.Parallelism
        p.KeyLength = hash), none)
    else if mode = ModeArgon2id then
      (decide (argonIDKey password salt p.Iterations p.Memory p.Parallelism
        p.KeyLength = hash), none)
    else (false, some .unsupportedMode)

example : decodeHash "" = .error .invalidHash := by decide
example : decodeHash "$argon2id$v=18$m=65536,t=1,p=4$dGVzdHNhbHQ$dGVzdGhhc2g" =
    .error .incompatibleVersion := by decide
example : decodeHash "$argon2d$v=19$m=65536,t=1,p=4$dGVzdHNhbHQ$dGVzdGhhc2g" =
    .error .unsupportedMode := by decide
example : decodeHash "$argon2id$v=19$m=0,t=1,p=4$dGVzdHNhbHQ$dGVzdGhhc2g" =
    .error .invalidHash := by decide
example : decodeHash "$argon2id$v=19$m=65536,t=1,p=4$invalid!!!base64$dGVzdGhhc2g" =
    .error .base64Error := by decide

/-! ## Scanning the rendered numbers back -/

theorem except_bind_ok {ε α β : Type} (a : α) (f : α → Except ε β) :
    (Except.ok a : Except ε α) >>= f = f a := rfl

theorem except_bind_error {ε α β : Type} (e : ε) (f : α → Except ε β) :
    (Except.error e : Except ε α) >>= f = Except.error e := rfl

theorem skipSpace_of_isDigit10 {c : Char} (h : isDigit10 c = true) (cs : List Char) :
    skipSpace (c :: cs) = .ok (c :: cs) := by
  have hn : 48 ≤ c.toNat ∧ c.toNat ≤ 57 := by
    simpa [isDigit10] using h
  have h1 : c ≠ '\n' := by
    intro he
    subst he
    exact absurd hn (by decide)
  have h2 : c ≠ '\r' := by
    intro he
    subst he
    exact absurd hn (by decide)
  have h3 : isGoSpace c = false := by
    simp only [isGoSpace, Bool.or_eq_false_iff, Bool.and_eq_false_iff,
      decide_eq_false_iff_not]
    omega
  simp [skipSpace, h1, h2, h3]

theorem natToDec_head_digit (n : Nat) :
    ∃ c cs, natToDec n = c :: cs ∧ isDigit10 c = true := by
  rcases hl : natToDec n with _ | ⟨c, cs⟩
  · exact absurd hl (natToDec_ne_nil n)
  · exact ⟨c, cs, rfl, natToDec_digits n c (by rw [hl]; simp)⟩

theorem scanDigits_natToDec (n : Nat) (rest : List Char)
    (hrest : ∀ c, rest.head? = some c → isDigit10 c = false) :
    scanDigits (natToDec n ++ rest) = .ok (n, rest) := by
  obtain ⟨ht, hd⟩ := takeWhile_append_all (natToDec_digits n) hrest
  have hne : (natToDec n).isEmpty = false := by
    rcases hl : natToDec n with _ | ⟨c, cs⟩
    · exact absurd hl (natToDec_ne_nil n)
    · rfl
  simp [scanDigits, ht, hd, hne, digitsVal_natToDec]

theorem scanUnsigned_natToDec (w : Nat) {n : Nat} (hn : n < 2 ^ w) (rest : List Char)
    (hrest : ∀ c, rest.head? = some c → isDigit10 c = false) :
    scanUnsigned w (natToDec n ++ rest) = .ok (n, rest) := by
  obtain ⟨c, cs, hl, hc⟩ := natToDec_head_digit n
  have hskip : skipSpace (natToDec n ++ rest) = .ok (natToDec n ++ rest) := by
    rw [hl, List.cons_append, skipSpace_of_isDigit10 hc, ← List.cons_append, ← hl]
  simp [scanUnsigned, except_bind_ok, hskip, scanDigits_natToDec n rest hrest, hn]

theorem sscanfParams_paramSeg {m t p : Nat}
    (hm : m < 2 ^ 32) (ht : t < 2 ^ 32) (hp : p < 2 ^ 8) :
    sscanfParams (paramSeg m t p) = .ok (m, t, p) := by
  have hcomma : ∀ (tail : List Char) (c : Char),
      (',' :: tail).head? = some c → isDigit10 c = false := by
    intro tail c hc
    simp only [List.head?_cons, Option.some.injEq] at hc
    subst hc
    decide
  have hnil : ∀ c : Char, ([] : List Char).head? = some c → isDigit10 c = false := by
    intro c hc
    simp at hc
  have h1 := scanUnsigned_natToDec 32 hm
    (',' :: 't' :: '=' :: (natToDec t ++ ',' :: 'p' :: '=' :: natToDec p))
    (hcomma _)
  have h2 := scanUnsigned_natToDec 32 ht
    (',' :: 'p' :: '=' :: natToDec p) (hcomma _)
  have h3 : scanUnsigned 8 (natToDec p ++ []) = .ok (p, []) :=
    scanUnsigned_natToDec 8 hp [] hnil
  rw [List.append_nil] at h3
  simp [sscanfParams, paramSeg, expectChar, except_bind_ok, h1, h2, h3]

example : sscanfParams (paramSeg 65536 1 4) = .ok (65536, 1, 4) :=
  sscanfParams_paramSeg (by decide) (by decide) (by decide)

/-! ## Stepping lemmas for `decodeHash` -/

theorem decodeHash_eq_decodeSegs {s : String} {v0 v1 v2 v3 v4 v5 : List Char}
    (h : goSplit '$' s.data = [v0, v1, v2, v3, v4, v5]) :
    decodeHash s = decodeSegs v1 v2 v3 v4 v5 := by
  unfold decodeHash
  rw [h]

theorem decodeHash_not6 {s : String} (h : (goSplit '$' s.data).length ≠ 6) :
    decodeHash s = .error .invalidHash := by
  unfold decodeHash
  rcases hl : goSplit '$' s.data with _ | ⟨a, _ | ⟨b, _ | ⟨c, _ | ⟨d, _ | ⟨e, _ | ⟨f, rest⟩⟩⟩⟩⟩⟩
  · rfl
  · rfl
  · rfl
  · rfl
  · rfl
  · rfl
  · cases rest with
    | nil => rw [hl] at h; simp at h
    | cons g gs => rfl

theorem decodeSegs_version_scan_error {v1 v2 v3 v4 v5 : List Char}
    (h : sscanfVersion v2 = .error ()) :
    decodeSegs v1 v2 v3 v4 v5 = .error .invalidHash := by
  simp [decodeSegs, h]

theorem decodeSegs_version_ne {v1 v2 v3 v4 v5 : List Char} {v : Int}
    (h : sscanfVersion v2 = .ok v) (hv : v ≠ argon2Version) :
    decodeSegs v1 v2 v3 v4 v5 = .error .incompatibleVersion := by
  simp [decodeSegs, h, hv]

theorem decodeSegs_bad_mode {v1 v2 v3 v4 v5 : List Char}
    (hv : sscanfVersion v2 = .ok argon2Version)
    (h1 : (⟨v1⟩ : String) ≠ ModeArgon2id) (h2 : (⟨v1⟩ : String) ≠ ModeArgon2i) :
    decodeSegs v1 v2 v3 v4 v5 = .error .unsupportedMode := by
  simp [decodeSegs, hv, h1, h2]

theorem decodeSegs_params_scan_error {v1 v2 v3 v4 v5 : List Char}
    (hv : sscanfVersion v2 = .ok argon2Version)
    (hmode : (⟨v1⟩ : String) = ModeArgon2id ∨ (⟨v1⟩ : String) = ModeArgon2i)
    (hp : sscanfParams v3 = .error ()) :
    decodeSegs v1 v2 v3 v4 v5 = .error .invalidHash := by
  rcases hmode with h | h <;> simp [decodeSegs, hv, h, hp]

theorem decodeSegs_params_invalid {v1 v2 v3 v4 v5 : List Char} {m t p : Nat}
    (hv : sscanfVersion v2 = .ok argon2Version)
    (hmode : (⟨v1⟩ : String) = ModeArgon2id ∨ (⟨v1⟩ : String) = ModeArgon2i)
    (hp : sscanfParams v3 = .ok (m, t, p)) (hz : m < 1 ∨ t < 1 ∨ p < 1) :
    decodeSegs v1 v2 v3 v4 v5 = .error .invalidHash := by
  rcases hmode with h | h <;> simp [decodeSegs, hv, h, hp, hz] <;>
    intro h1 h2 h3 <;> exact absurd hz (by omega)

theorem decodeSegs_salt_b64_error {v1 v2 v3 v4 v5 : List Char} {m t p : Nat}
    (hv : sscanfVersion v2 = .ok argon2Version)
    (hmode : (⟨v1⟩ : String) = ModeArgon2id ∨ (⟨v1⟩ : String) = ModeArgon2i)
    (hp : sscanfParams v3 = .ok (m, t, p))
    (hm1 : 1 ≤ m) (ht1 : 1 ≤ t) (hp1 : 1 ≤ p)
    (hs : b64Decode v4 = .error ()) :
    decodeSegs v1 v2 v3 v4 v5 = .error .base64Error := by
  have hz : ¬(m < 1 ∨ t < 1 ∨ p < 1) := by omega
  rcases hmode with h | h <;> simp [decodeSegs, hv, h, hp, hz, hs] <;> omega

theorem decodeSegs_hash_b64_error {v1 v2 v3 v4 v5 : List Char} {m t p : Nat}
    {salt : List Nat}
    (hv : sscanfVersion v2 = .ok argon2Version)
    (hmode : (⟨v1⟩ : String) = ModeArgon2id ∨ (⟨v1⟩ : String) = ModeArgon2i)
    (hp : sscanfParams v3 = .ok (m, t, p))
    (hm1 : 1 ≤ m) (ht1 : 1 ≤ t) (hp1 : 1 ≤ p)
    (hs : b64Decode v4 = .ok salt) (hh : b64Decode v5 = .error ()) :
    decodeSegs v1 v2 v3 v4 v5 = .error .base64Error := by
  have hz : ¬(m < 1 ∨ t < 1 ∨ p < 1) := by omega
  rcases hmode with h | h <;> simp [decodeSegs, hv, h, hp, hz, hs, hh] <;> omega

theorem decodeSegs_ok {v1 v2 v3 v4 v5 : List Char} {m t p : Nat}
    {salt hash : List Nat}
    (hv : sscanfVersion v2 = .ok argon2Version)
    (hmode : (⟨v1⟩ : String) = ModeArgon2id ∨ (⟨v1⟩ : String) = ModeArgon2i)
    (hp : sscanfParams v3 = .ok (m, t, p))
    (hm1 : 1 ≤ m) (ht1 : 1 ≤ t) (hp1 : 1 ≤ p)
    (hs : b64Decode v4 = .ok salt) (hh : b64Decode v5 = .ok hash) :
    decodeSegs v1 v2 v3 v4 v5 =
      .ok ({ Memory := m, Iterations := t, Parallelism := p,
             SaltLength := salt.length, KeyLength := hash.length,
             Mode := ⟨v1⟩ }, salt, hash) := by
  have hz : ¬(m < 1 ∨ t < 1 ∨ p < 1) := by omega
  rcases hmode with h | h <;> simp [decodeSegs, hv, h, hp, hz, hs, hh] <;> omega

/-! ## Splitting the encoder's output -/

theorem paramSeg_no_dollar (m t p : Nat) : ∀ c ∈ paramSeg m t p, c ≠ '$' := by
  intro c hc heq
  subst heq
  simp only [paramSeg, List.mem_cons, List.mem_append] at hc
  rcases hc with h | h | h
  · exact absurd h (by decide)
  · exact absurd h (by decide)
  · rcases h with h | h | h | h | h
    · exact natToDec_no_dollar m '$' h rfl
    · exact absurd h (by decide)
    · exact absurd h (by decide)
    · exact absurd h (by decide)
    · rcases h with h | h | h | h | h
      · exact natToDec_no_dollar t '$' h rfl
      · exact absurd h (by decide)
      · exact absurd h (by decide)
      · exact absurd h (by decide)
      · exact natToDec_no_dollar p '$' h rfl

theorem goSplit_encodeHash (mode : String) (m t p : Nat) (salt hash : List Nat)
    (hmode : ∀ c ∈ mode.data, c ≠ '$')
    (hsalt : ∀ b ∈ salt, b < 256) (hhash : ∀ b ∈ hash, b < 256) :
    goSplit '$' (encodeHash mode m t p salt hash).data =
      [[], mode.data, 'v' :: '=' :: natToDec 19, paramSeg m t p,
        b64EncodeList salt, b64EncodeList hash] := by
  have hv2 : ∀ c ∈ 'v' :: '=' :: natToDec 19, c ≠ '$' := by
    intro c hc heq
    subst heq
    simp only [List.mem_cons] at hc
    rcases hc with h | h | h
    · exact absurd h (by decide)
    · exact absurd h (by decide)
    · exact natToDec_no_dollar 19 '$' h rfl
  show goSplit '$' ('$' :: (mode.data ++ '$' :: (('v' :: '=' :: natToDec 19) ++
      '$' :: (paramSeg m t p ++
        '$' :: (b64EncodeList salt ++ '$' :: b64EncodeList hash))))) = _
  rw [goSplit_sep_cons, goSplit_append_sep _ _ _ hmode,
    goSplit_append_sep _ _ _ hv2, goSplit_append_sep _ _ _ (paramSeg_no_dollar m t p),
    goSplit_append_sep _ _ _ (b64EncodeList_no_dollar hsalt),
    goSplit_no_sep _ _ (b64EncodeList_no_dollar hhash)]

/-- Round trip of the encoder through `decodeHash`: the shared engine
behind the round-trip and the hash/verify claims. -/
theorem decode_encode (mode : String) (m t p : Nat) (salt key : List Nat)
    (hmode : mode = ModeArgon2id ∨ mode = ModeArgon2i)
    (hm1 : 1 ≤ m) (hm2 : m < 2 ^ 32) (ht1 : 1 ≤ t) (ht2 : t < 2 ^ 32)
    (hp1 : 1 ≤ p) (hp2 : p < 2 ^ 8)
    (hsalt : ∀ b ∈ salt, b < 256) (hkey : ∀ b ∈ key, b < 256) :
    decodeHash (encodeHash mode m t p salt key) =
      .ok ({ Memory := m, Iterations := t, Parallelism := p,
             SaltLength := salt.length, KeyLength := key.length,
             Mode := mode }, salt, key) := by
  have hmd : ∀ c ∈ mode.data, c ≠ '$' := by
    rcases hmode with rfl | rfl <;> decide
  rw [decodeHash_eq_decodeSegs (goSplit_encodeHash mode m t p salt key hmd hsalt hkey)]
  have hres := @decodeSegs_ok mode.data ('v' :: '=' :: natToDec 19)
    (paramSeg m t p) (b64EncodeList salt) (b64EncodeList key) m t p salt key
    (by decide)
    (by rcases hmode with rfl | rfl
        · exact Or.inl rfl
        · exact Or.inr rfl)
    (sscanfParams_paramSeg hm2 ht2 hp2) hm1 ht1 hp1
    (b64Decode_encode hsalt) (b64Decode_encode hkey)
  rw [hres]

example :
    decodeHash (encodeHash "argon2id" 65536 1 4 [1, 2] [3, 4, 5]) =
      .ok ({ Memory := 65536, Iterations := 1, Parallelism := 4,
             SaltLength := 2, KeyLength := 3, Mode := "argon2id" }, [1, 2], [3, 4, 5]) := by
  decide

/-! ## Stepping lemmas for `Verify` -/

theorem Verify_decode_error {kK kID : KDF} {pw s : String} {err : GoErr}
    (h : decodeHash s = .error err) : Verify kK kID pw s = (false, some err) := by
  simp [Verify, h]

theorem Verify_ok_id {kK kID : KDF} {pw s : String} {p : Params}
    {salt hash : List Nat}
    (h : decodeHash s = .ok (p, salt, hash)) (hm : p.Mode = ModeArgon2id) :
    Verify kK kID pw s =
      (decide (kID pw salt p.Iterations p.Memory p.Parallelism p.KeyLength = hash),
        none) := by
  simp [Verify, h, resolveMode, hm, ModeArgon2id, ModeArgon2i]

theorem Verify_ok_i {kK kID : KDF} {pw s : String} {p : Params}
    {salt hash : List Nat}
    (h : decodeHash s = .ok (p, salt, hash)) (hm : p.Mode = ModeArgon2i) :
    Verify kK kID pw s =
      (decide (kK pw salt p.Iterations p.Memory p.Parallelism p.KeyLength = hash),
        none) := by
  simp [Verify, h, resolveMode, hm, ModeArgon2id, ModeArgon2i]

/-- Inversion: every record produced by a successful decode passed the
validation and mode checks. -/
theorem decodeSegs_ok_inv {v1 v2 v3 v4 v5 : List Char}
    {rec : Params × List Nat × List Nat}
    (h : decodeSegs v1 v2 v3 v4 v5 = .ok rec) :
    1 ≤ rec.1.Memory ∧ 1 ≤ rec.1.Iterations ∧ 1 ≤ rec.1.Parallelism ∧
      (rec.1.Mode = ModeArgon2id ∨ rec.1.Mode = ModeArgon2i) := by
  unfold decodeSegs at h
  split at h
  · exact absurd h (by simp)
  · split at h
    · exact absurd h (by simp)
    · split at h
      · exact absurd h (by dsimp only; split <;> simp)
      · split at h
        · exact absurd h (by dsimp only; split <;> simp)
        · split at h
          · exact absurd h (by dsimp only; split <;> simp)
          · split at h
            · exact absurd h (by dsimp only; split <;> simp)
            · dsimp only at h
              split at h
              · exact absurd h (by simp)
              · rename_i hmode
                cases h
                refine ⟨by dsimp only; omega, by dsimp only; omega,
                  by dsimp only; omega, ?_⟩
                dsimp only
                rcases not_and_or.mp hmode with hm | hm
                · exact Or.inl (not_not.mp hm)
                · exact Or.inr (not_not.mp hm)

/-- Inversion lifted to `decodeHash`. -/
theorem decodeHash_ok_inv {s : String} {rec : Params × List Nat × List Nat}
    (h : decodeHash s = .ok rec) :
    1 ≤ rec.1.Memory ∧ 1 ≤ rec.1.Iterations ∧ 1 ≤ rec.1.Parallelism ∧
      (rec.1.Mode = ModeArgon2id ∨ rec.1.Mode = ModeArgon2i) := by
  unfold decodeHash at h
  split at h
  · exact decodeSegs_ok_inv h
  · exact absurd h (by simp)

/-- Selects the KDF variant the source's mode switch selects: `argon2.Key`
for argon2i, `argon2.IDKey` otherwise. -/
def kdfFor (kK kID : KDF) (mode : String) : KDF :=
  if mode = ModeArgon2i then kK else kID

/-- A concrete KDF for witnesses: the requested number of zero bytes. -/
def kdfZero : KDF := fun _ _ _ _ _ kl => List.replicate kl 0

/-- A concrete degenerate KDF (constant output) for the collision
counterexample. -/
def kdfConst : KDF := fun _ _ _ _ _ _ => [1]

/-! ## The claims -/

/-- Claim C2: for every accepted mode, parameters with memoryCost,
iterations, parallelism at least 1 (within their `uint32`/`uint8`
widths), and arbitrary salt and key byte strings, decoding the encoder's
six-segment string succeeds and reproduces exactly the same mode,
memoryCost, iterations, parallelism, salt bytes, and key bytes. -/
theorem claim2_round_trip (mode : String) (m t p : Nat) (salt key : List Nat)
    (hmode : mode = ModeArgon2id ∨ mode = ModeArgon2i)
    (hm1 : 1 ≤ m) (hm2 : m < 2 ^ 32) (ht1 : 1 ≤ t) (ht2 : t < 2 ^ 32)
    (hp1 : 1 ≤ p) (hp2 : p < 2 ^ 8)
    (hsalt : ∀ b ∈ salt, b < 256) (hkey : ∀ b ∈ key, b < 256) :
    decodeHash (encodeHash mode m t p salt key) =
      .ok ({ Memory := m, Iterations := t, Parallelism := p,
             SaltLength := salt.length, KeyLength := key.length,
             Mode := mode }, salt, key) :=
  decode_encode mode m t p salt key hmode hm1 hm2 ht1 ht2 hp1 hp2 hsalt hkey

/-- Witness for C2 at a concrete encoding. -/
theorem claim2_round_trip_witness :
    decodeHash (encodeHash "argon2id" 65536 1 4 [0, 255] [7]) =
      .ok ({ Memory := 65536, Iterations := 1, Parallelism := 4,
             SaltLength := 2, KeyLength := 1,
             Mode := "argon2id" }, [0, 255], [7]) :=
  claim2_round_trip "argon2id" 65536 1 4 [0, 255] [7] (Or.inl rfl)
    (by decide) (by decide) (by decide) (by decide) (by decide) (by decide)
    (by decide) (by decide)

/-- Claim C8: an input that does not split into exactly six
dollar-delimited segments is rejected with `ErrInvalidHash`, and the
empty string takes exactly this path (it splits into one segment). -/
theorem claim8_segment_count :
    (∀ s : String, (goSplit '$' s.data).length ≠ 6 →
      decodeHash s = .error .invalidHash) ∧
    (goSplit '$' ("" : String).data).length = 1 ∧
    decodeHash "" = .error .invalidHash := by
  refine ⟨fun s h => decodeHash_not6 h, by decide, by decide⟩

/-- Witness for C8 at a concrete five-segment input. -/
theorem claim8_segment_count_witness :
    decodeHash "invalid_hash_string" = .error .invalidHash :=
  claim8_segment_count.1 "invalid_hash_string" (by decide)

/-- Claim C10: `decodeHash` never examines segment 0.  Whenever an input
splits into six segments whose segments 1 through 5 pass every check,
decoding succeeds — with no condition at all on segment 0, so a string
that does not begin with the `$` delimiter is accepted. -/
theorem claim10_segment_zero_ignored (s : String)
    (v0 v1 v2 v3 v4 v5 : List Char) (m t p : Nat) (salt key : List Nat)
    (hsplit : goSplit '$' s.data = [v0, v1, v2, v3, v4, v5])
    (hv : sscanfVersion v2 = .ok argon2Version)
    (hmode : (⟨v1⟩ : String) = ModeArgon2id ∨ (⟨v1⟩ : String) = ModeArgon2i)
    (hp : sscanfParams v3 = .ok (m, t, p))
    (hm1 : 1 ≤ m) (ht1 : 1 ≤ t) (hp1 : 1 ≤ p)
    (hs : b64Decode v4 = .ok salt) (hh : b64Decode v5 = .ok key) :
    decodeHash s =
      .ok ({ Memory := m, Iterations := t, Parallelism := p,
             SaltLength := salt.length, KeyLength := key.length,
             Mode := ⟨v1⟩ }, salt, key) := by
  rw [decodeHash_eq_decodeSegs hsplit]
  exact decodeSegs_ok hv hmode hp hm1 ht1 hp1 hs hh

/-- Witness for C10: a non-empty segment 0 (no leading `$`) is accepted. -/
theorem claim10_segment_zero_ignored_witness :
    decodeHash "abc$argon2id$v=19$m=1,t=1,p=1$AA$AA" =
      .ok ({ Memory := 1, Iterations := 1, Parallelism := 1,
             SaltLength := 1, KeyLength := 1,
             Mode := "argon2id" }, [0], [0]) :=
  claim10_segment_zero_ignored "abc$argon2id$v=19$m=1,t=1,p=1$AA$AA"
    "abc".data "argon2id".data "v=19".data "m=1,t=1,p=1".data "AA".data "AA".data
    1 1 1 [0] [0] (by decide) (by decide) (Or.inl (by decide)) (by decide)
    (by decide) (by decide) (by decide) (by decide) (by decide)

/-- Claim C9: with a well-formed frame (six segments, supported mode,
version 19, parameters at least 1) but a salt or key segment that is not
valid unpadded standard base64, `decodeHash` fails with the propagated
base64 error — distinct from the three sentinels — and `Verify` returns
false together with that error. -/
theorem claim9_payload_decode_error (kK kID : KDF) (pw s : String)
    (v0 v1 v2 v3 v4 v5 : List Char) (m t p : Nat)
    (hsplit : goSplit '$' s.data = [v0, v1, v2, v3, v4, v5])
    (hv : sscanfVersion v2 = .ok argon2Version)
    (hmode : (⟨v1⟩ : String) = ModeArgon2id ∨ (⟨v1⟩ : String) = ModeArgon2i)
    (hp : sscanfParams v3 = .ok (m, t, p))
    (hm1 : 1 ≤ m) (ht1 : 1 ≤ t) (hp1 : 1 ≤ p)
    (hbad : b64Decode v4 = .error () ∨
      ((∃ salt, b64Decode v4 = .ok salt) ∧ b64Decode v5 = .error ())) :
    decodeHash s = .error .base64Error ∧
      GoErr.base64Error ≠ GoErr.invalidHash ∧
      GoErr.base64Error ≠ GoErr.incompatibleVersion ∧
      GoErr.base64Error ≠ GoErr.unsupportedMode ∧
      Verify kK kID pw s = (false, some .base64Error) := by
  have hdec : decodeHash s = .error .base64Error := by
    rw [decodeHash_eq_decodeSegs hsplit]
    rcases hbad with h | ⟨⟨salt, hsok⟩, hherr⟩
    · exact decodeSegs_salt_b64_error hv hmode hp hm1 ht1 hp1 h
    · exact decodeSegs_hash_b64_error hv hmode hp hm1 ht1 hp1 hsok hherr
  exact ⟨hdec, by decide, by decide, by decide, Verify_decode_error hdec⟩

/-- Witness for C9 at the malformed-salt string from the repository's
tests. -/
theorem claim9_payload_decode_error_witness :
    decodeHash "$argon2id$v=19$m=65536,t=1,p=4$invalid!!!base64$dGVzdGhhc2g" =
        .error .base64Error ∧
      GoErr.base64Error ≠ GoErr.invalidHash ∧
      GoErr.base64Error ≠ GoErr.incompatibleVersion ∧
      GoErr.base64Error ≠ GoErr.unsupportedMode ∧
      Verify kdfZero kdfZero "password"
        "$argon2id$v=19$m=65536,t=1,p=4$invalid!!!base64$dGVzdGhhc2g" =
        (false, some .base64Error) :=
  claim9_payload_decode_error kdfZero kdfZero "password"
    "$argon2id$v=19$m=65536,t=1,p=4$invalid!!!base64$dGVzdGhhc2g"
    [] "argon2id".data "v=19".data "m=65536,t=1,p=4".data
    "invalid!!!base64".data "dGVzdGhhc2g".data 65536 1 4
    (by decide) (by decide) (Or.inl (by decide)) (by decide)
    (by decide) (by decide) (by decide) (Or.inl (by decide))

/-- Counterexample to claim C3: the mode tag is NOT checked before the
version segment.  Here the mode segment is the unsupported `argon2d`,
yet the result is `ErrIncompatibleVersion` (the version check runs
first), not `ErrUnsupportedMode` as the claim demands. -/
theorem claim3_counterexample :
    (goSplit '$' ("$argon2d$v=18$m=1,t=1,p=1$AA$AA" : String).data).length = 6 ∧
      ("argon2d" : String) ≠ ModeArgon2id ∧ ("argon2d" : String) ≠ ModeArgon2i ∧
      decodeHash "$argon2d$v=18$m=1,t=1,p=1$AA$AA" = .error .incompatibleVersion ∧
      GoErr.incompatibleVersion ≠ GoErr.unsupportedMode := by decide

/-- Claim C3 as amended: for a six-segment input whose version segment
scans to the supported version 19, a mode segment that is neither
`argon2id` nor `argon2i` (the empty segment included) fails with
`ErrUnsupportedMode`, regardless of the remaining segments; the mode
check runs after the version parse and version equality checks, not
before them. -/
theorem claim3_unsupported_mode (s : String) (v0 v1 v2 v3 v4 v5 : List Char)
    (hsplit : goSplit '$' s.data = [v0, v1, v2, v3, v4, v5])
    (hv : sscanfVersion v2 = .ok argon2Version)
    (h1 : (⟨v1⟩ : String) ≠ ModeArgon2id) (h2 : (⟨v1⟩ : String) ≠ ModeArgon2i) :
    decodeHash s = .error .unsupportedMode := by
  rw [decodeHash_eq_decodeSegs hsplit]
  exact decodeSegs_bad_mode hv h1 h2

/-- Witness for the amended C3: `argon2d` with a valid version is
rejected with `ErrUnsupportedMode` even though the later segments are
junk. -/
theorem claim3_unsupported_mode_witness :
    decodeHash "$argon2d$v=19$x$y$z" = .error .unsupportedMode :=
  claim3_unsupported_mode "$argon2d$v=19$x$y$z" [] "argon2d".data
    "v=19".data "x".data "y".data "z".data (by decide) (by decide)
    (by decide) (by decide)

/-- Counterexample to claim C4: a six-segment input whose parameter
segment scans as `m=0,t=1,p=1` (so memoryCost < 1) can still fail with
an error other than `ErrInvalidHash` — here the version is 18, so the
result is `ErrIncompatibleVersion`, because the version check precedes
the parameter validation. -/
theorem claim4_counterexample :
    (goSplit '$' ("$argon2id$v=18$m=0,t=1,p=1$AA$AA" : String).data).length = 6 ∧
      sscanfParams ("m=0,t=1,p=1" : String).data = .ok (0, 1, 1) ∧ (0 : Nat) < 1 ∧
      decodeHash "$argon2id$v=18$m=0,t=1,p=1$AA$AA" = .error .incompatibleVersion ∧
      GoErr.incompatibleVersion ≠ GoErr.invalidHash := by decide

/-- Claim C4 as amended: once the version and mode checks pass, a
scanned parameter triple with memoryCost < 1, iterations < 1, or
parallelism < 1 is rejected with `ErrInvalidHash`; and unconditionally,
every successfully decoded record satisfies memoryCost ≥ 1,
iterations ≥ 1, and parallelism ≥ 1. -/
theorem claim4_parameter_validation :
    (∀ (s : String) (v0 v1 v2 v3 v4 v5 : List Char) (m t p : Nat),
      goSplit '$' s.data = [v0, v1, v2, v3, v4, v5] →
      sscanfVersion v2 = .ok argon2Version →
      ((⟨v1⟩ : String) = ModeArgon2id ∨ (⟨v1⟩ : String) = ModeArgon2i) →
      sscanfParams v3 = .ok (m, t, p) → (m < 1 ∨ t < 1 ∨ p < 1) →
      decodeHash s = .error .invalidHash) ∧
    (∀ (s : String) (rec : Params × List Nat × List Nat),
      decodeHash s = .ok rec →
      1 ≤ rec.1.Memory ∧ 1 ≤ rec.1.Iterations ∧ 1 ≤ rec.1.Parallelism) := by
  constructor
  · intro s v0 v1 v2 v3 v4 v5 m t p hsplit hv hmode hp hz
    rw [decodeHash_eq_decodeSegs hsplit]
    exact decodeSegs_params_invalid hv hmode hp hz
  · intro s rec h
    have := decodeHash_ok_inv h
    exact ⟨this.1, this.2.1, this.2.2.1⟩

/-- Witness for the amended C4: `m=0` rejected with `ErrInvalidHash`,
and a successfully decoded record with all parameters at least 1. -/
theorem claim4_parameter_validation_witness :
    decodeHash "$argon2id$v=19$m=0,t=1,p=1$AA$AA" = .error .invalidHash ∧
      (1 ≤ (1 : Nat) ∧ 1 ≤ (1 : Nat) ∧ 1 ≤ (1 : Nat)) :=
  ⟨claim4_parameter_validation.1 "$argon2id$v=19$m=0,t=1,p=1$AA$AA"
      [] "argon2id".data "v=19".data "m=0,t=1,p=1".data "AA".data "AA".data
      0 1 1 (by decide) (by decide) (Or.inl (by decide)) (by decide)
      (Or.inl (by decide)),
    claim4_parameter_validation.2 "$argon2id$v=19$m=1,t=1,p=1$AA$AA"
      ({ Memory := 1, Iterations := 1, Parallelism := 1, SaltLength := 1,
         KeyLength := 1, Mode := "argon2id" }, [0], [0]) (by decide)⟩

/-- Counterexample to claim C6: `fmt.Sscanf` ignores input left over
after the format is exhausted, so a version segment `v=19x` and a
parameter segment `m=1,t=1,p=1x` both decode successfully — the claim
says such strings must not decode. -/
theorem claim6_counterexample :
    decodeHash "$argon2id$v=19x$m=1,t=1,p=1$AA$AA" =
      .ok ({ Memory := 1, Iterations := 1, Parallelism := 1,
             SaltLength := 1, KeyLength := 1,
             Mode := "argon2id" }, [0], [0]) ∧
    decodeHash "$argon2id$v=19$m=1,t=1,p=1x$AA$AA" =
      .ok ({ Memory := 1, Iterations := 1, Parallelism := 1,
             SaltLength := 1, KeyLength := 1,
             Mode := "argon2id" }, [0], [0]) := by decide

/-- Claim C6 as amended: `decodeHash` fails with `ErrInvalidHash` when
the `Sscanf`-style scan of segment 2 against `v=<int>` fails, or (with
version and mode accepted) when the scan of segment 3 against
`m=<int>,t=<int>,p=<int>` fails; but the scans only anchor a prefix of
the segment, so trailing characters beyond the pattern are accepted. -/
theorem claim6_scan_failures :
    (∀ (s : String) (v0 v1 v2 v3 v4 v5 : List Char),
      goSplit '$' s.data = [v0, v1, v2, v3, v4, v5] →
      sscanfVersion v2 = .error () →
      decodeHash s = .error .invalidHash) ∧
    (∀ (s : String) (v0 v1 v2 v3 v4 v5 : List Char),
      goSplit '$' s.data = [v0, v1, v2, v3, v4, v5] →
      sscanfVersion v2 = .ok argon2Version →
      ((⟨v1⟩ : String) = ModeArgon2id ∨ (⟨v1⟩ : String) = ModeArgon2i) →
      sscanfParams v3 = .error () →
      decodeHash s = .error .invalidHash) := by
  constructor
  · intro s v0 v1 v2 v3 v4 v5 hsplit hv
    rw [decodeHash_eq_decodeSegs hsplit]
    exact decodeSegs_version_scan_error hv
  · intro s v0 v1 v2 v3 v4 v5 hsplit hv hmode hp
    rw [decodeHash_eq_decodeSegs hsplit]
    exact decodeSegs_params_scan_error hv hmode hp

/-- Witness for the amended C6 at concrete malformed segments. -/
theorem claim6_scan_failures_witness :
    decodeHash "$argon2id$vv$m=1,t=1,p=1$AA$AA" = .error .invalidHash ∧
      decodeHash "$argon2id$v=19$mm$AA$AA" = .error .invalidHash :=
  ⟨claim6_scan_failures.1 "$argon2id$vv$m=1,t=1,p=1$AA$AA"
      [] "argon2id".data "vv".data "m=1,t=1,p=1".data "AA".data "AA".data
      (by decide) (by decide),
    claim6_scan_failures.2 "$argon2id$v=19$mm$AA$AA"
      [] "argon2id".data "v=19".data "mm".data "AA".data "AA".data
      (by decide) (by decide) (Or.inl (by decide)) (by decide)⟩

/-- Counterexample to claim C7: a six-segment string whose mode segment
is empty and whose remaining segments are valid does NOT decode with the
mode defaulting to argon2id — `decodeHash` rejects it with
`ErrUnsupportedMode`. -/
theorem claim7_counterexample :
    decodeHash "$$v=19$m=1,t=1,p=1$AA$AA" = .error .unsupportedMode := by decide

/-- Claim C7 as amended: the argon2id legacy default applies to a
`Params` value whose `Mode` field is unset, not to decoded strings: an
encoded string with an empty mode segment is rejected with
`ErrUnsupportedMode` (after the version check); `HashWithParams` with an
empty `Mode` hashes and encodes with the argon2id variant; and decoding
never produces a record with an empty (or otherwise unsupported) mode,
so `Verify`'s own defaulting branch is unreachable from decoded
records. -/
theorem claim7_mode_defaulting :
    (∀ (s : String) (v0 v2 v3 v4 v5 : List Char),
      goSplit '$' s.data = [v0, [], v2, v3, v4, v5] →
      sscanfVersion v2 = .ok argon2Version →
      decodeHash s = .error .unsupportedMode) ∧
    (∀ (kK kID : KDF) (salt : List Nat) (pw : String) (p : Params),
      p.Mode = "" →
      HashWithParams kK kID salt pw p =
        .ok (encodeHash ModeArgon2id p.Memory p.Iterations p.Parallelism salt
          (kID pw salt p.Iterations p.Memory p.Parallelism p.KeyLength))) ∧
    (∀ (s : String) (rec : Params × List Nat × List Nat),
      decodeHash s = .ok rec →
      rec.1.Mode = ModeArgon2id ∨ rec.1.Mode = ModeArgon2i) := by
  refine ⟨?_, ?_, ?_⟩
  · intro s v0 v2 v3 v4 v5 hsplit hv
    rw [decodeHash_eq_decodeSegs hsplit]
    exact decodeSegs_bad_mode hv (by decide) (by decide)
  · intro kK kID salt pw p hm
    simp [HashWithParams, resolveMode, hm, ModeArgon2id, ModeArgon2i]
  · intro s rec h
    exact (decodeHash_ok_inv h).2.2.2

/-- Witness for the amended C7. -/
theorem claim7_mode_defaulting_witness :
    decodeHash "$$v=19$m=1,t=1,p=1$AA$AA" = .error .unsupportedMode ∧
      HashWithParams kdfZero kdfZero [0] "pw"
          { Memory := 1, Iterations := 1, Parallelism := 1, SaltLength := 1,
            KeyLength := 2, Mode := "" } =
        .ok (encodeHash ModeArgon2id 1 1 1 [0] (kdfZero "pw" [0] 1 1 1 2)) ∧
      (("argon2id" : String) = ModeArgon2id ∨ ("argon2id" : String) = ModeArgon2i) :=
  ⟨claim7_mode_defaulting.1 "$$v=19$m=1,t=1,p=1$AA$AA"
      [] "v=19".data "m=1,t=1,p=1".data "AA".data "AA".data
      (by decide) (by decide),
    claim7_mode_defaulting.2.1 kdfZero kdfZero [0] "pw"
      { Memory := 1, Iterations := 1, Parallelism := 1, SaltLength := 1,
        KeyLength := 2, Mode := "" } rfl,
    claim7_mode_defaulting.2.2 "$argon2id$v=19$m=1,t=1,p=1$AA$AA"
      ({ Memory := 1, Iterations := 1, Parallelism := 1, SaltLength := 1,
         KeyLength := 1, Mode := "argon2id" }, [0], [0]) (by decide)⟩

/-- Claim C5: the `DefaultParams` fields at a detected core count of
256.  The fixed fields match the claim, but the `uint8` conversion
truncates 256 to 0 and no floor of 1 is applied, so `Parallelism` is 0 —
outside the claimed range 1..4 (the code's own documentation promises
the `min(NumCPU,4)` behaviour). -/
theorem claim5_default_params_bug :
    (DefaultParams 256).Memory = 65536 ∧
      (DefaultParams 256).Iterations = 1 ∧
      (DefaultParams 256).SaltLength = 16 ∧
      (DefaultParams 256).KeyLength = 32 ∧
      (DefaultParams 256).Mode = ModeArgon2id ∧
      (DefaultParams 256).Parallelism = 0 ∧
      ¬(1 ≤ (DefaultParams 256).Parallelism ∧
        (DefaultParams 256).Parallelism ≤ 4) := by decide

/-- Counterexample to claim C1: with the KDF a deterministic
uninterpreted function, nothing forces distinct passwords to distinct
keys.  Under the (deterministic) constant KDF, hashing `"a"` succeeds
and the resulting string verifies against the different password
`"b"`. -/
theorem claim1_counterexample :
    HashWithParams kdfConst kdfConst (List.replicate 16 0) "a"
        { Memory := 65536, Iterations := 1, Parallelism := 4,
          SaltLength := 16, KeyLength := 32, Mode := ModeArgon2id } =
      .ok (encodeHash ModeArgon2id 65536 1 4 (List.replicate 16 0) [1]) ∧
      ("b" : String) ≠ "a" ∧
      Verify kdfConst kdfConst "b"
          (encodeHash ModeArgon2id 65536 1 4 (List.replicate 16 0) [1]) =
        (true, none) := by decide

/-- Claim C1 as amended: for every password and accepted `Params` whose
memoryCost, iterations and parallelism are at least 1 (the decoder
rejects anything less, so a hash produced from smaller values can never
verify), with a salt of the configured length and a KDF that honours the
requested output length, `HashWithParams` succeeds and `Verify` accepts
the same password with no error; and any other password is rejected
provided the selected KDF variant is collision-free in the password at
those arguments. -/
theorem claim1_hash_verify (kK kID : KDF) (password : String) (p : Params)
    (salt : List Nat)
    (hmode : p.Mode = "" ∨ p.Mode = ModeArgon2id ∨ p.Mode = ModeArgon2i)
    (hm1 : 1 ≤ p.Memory) (hm2 : p.Memory < 2 ^ 32)
    (ht1 : 1 ≤ p.Iterations) (ht2 : p.Iterations < 2 ^ 32)
    (hp1 : 1 ≤ p.Parallelism) (hp2 : p.Parallelism < 2 ^ 8)
    (_hsl : salt.length = p.SaltLength)
    (hsalt : ∀ b ∈ salt, b < 256)
    (hout : ∀ b ∈ kdfFor kK kID (resolveMode p.Mode) password salt
      p.Iterations p.Memory p.Parallelism p.KeyLength, b < 256)
    (hlen : (kdfFor kK kID (resolveMode p.Mode) password salt
      p.Iterations p.Memory p.Parallelism p.KeyLength).length = p.KeyLength) :
    ∃ S : String,
      HashWithParams kK kID salt password p = .ok S ∧
      Verify kK kID password S = (true, none) ∧
      ∀ password' : String, password' ≠ password →
        (∀ pw1 pw2 : String,
          kdfFor kK kID (resolveMode p.Mode) pw1 salt p.Iterations p.Memory
              p.Parallelism p.KeyLength =
            kdfFor kK kID (resolveMode p.Mode) pw2 salt p.Iterations p.Memory
              p.Parallelism p.KeyLength → pw1 = pw2) →
        Verify kK kID password' S = (false, none) := by
  have hres : resolveMode p.Mode = ModeArgon2id ∨ resolveMode p.Mode = ModeArgon2i := by
    rcases hmode with h | h | h <;> simp [resolveMode, h, ModeArgon2id, ModeArgon2i]
  rcases hres with hrm | hrm
  · -- argon2id variant
    have hkf : kdfFor kK kID (resolveMode p.Mode) = kID := by
      rw [hrm]
      simp [kdfFor, ModeArgon2i, ModeArgon2id]
    rw [hkf] at hout hlen
    have hhash : HashWithParams kK kID salt password p =
        .ok (encodeHash ModeArgon2id p.Memory p.Iterations p.Parallelism salt
          (kID password salt p.Iterations p.Memory p.Parallelism p.KeyLength)) := by
      simp [HashWithParams, hrm, ModeArgon2id, ModeArgon2i]
    have hdec := decode_encode ModeArgon2id p.Memory p.Iterations p.Parallelism salt
      (kID password salt p.Iterations p.Memory p.Parallelism p.KeyLength)
      (Or.inl rfl) hm1 hm2 ht1 ht2 hp1 hp2 hsalt hout
    refine ⟨_, hhash, ?_, ?_⟩
    · rw [Verify_ok_id hdec rfl]
      simp only [hlen]
      simp
    · intro pw' hne hinj
      rw [hkf] at hinj
      rw [Verify_ok_id hdec rfl]
      simp only [hlen]
      have hne' : kID pw' salt p.Iterations p.Memory p.Parallelism p.KeyLength ≠
          kID password salt p.Iterations p.Memory p.Parallelism p.KeyLength := by
        intro heq
        exact hne (hinj pw' password heq)
      simp [hne']
  · -- argon2i variant
    have hkf : kdfFor kK kID (resolveMode p.Mode) = kK := by
      rw [hrm]
      simp [kdfFor]
    rw [hkf] at hout hlen
    have hhash : HashWithParams kK kID salt password p =
        .ok (encodeHash ModeArgon2i p.Memory p.Iterations p.Parallelism salt
          (kK password salt p.Iterations p.Memory p.Parallelism p.KeyLength)) := by
      simp [HashWithParams, hrm, ModeArgon2id, ModeArgon2i]
    have hdec := decode_encode ModeArgon2i p.Memory p.Iterations p.Parallelism salt
      (kK password salt p.Iterations p.Memory p.Parallelism p.KeyLength)
      (Or.inr rfl) hm1 hm2 ht1 ht2 hp1 hp2 hsalt hout
    refine ⟨_, hhash, ?_, ?_⟩
    · rw [Verify_ok_i hdec rfl]
      simp only [hlen]
      simp
    · intro pw' hne hinj
      rw [hkf] at hinj
      rw [Verify_ok_i hdec rfl]
      simp only [hlen]
      have hne' : kK pw' salt p.Iterations p.Memory p.Parallelism p.KeyLength ≠
          kK password salt p.Iterations p.Memory p.Parallelism p.KeyLength := by
        intro heq
        exact hne (hinj pw' password heq)
      simp [hne']

/-- Witness for the amended C1 at a concrete configuration. -/
theorem claim1_hash_verify_witness :
    ∃ S : String,
      HashWithParams kdfZero kdfZero (List.replicate 16 0) "a"
          { Memory := 65536, Iterations := 1, Parallelism := 4,
            SaltLength := 16, KeyLength := 32, Mode := ModeArgon2id } = .ok S ∧
      Verify kdfZero kdfZero "a" S = (true, none) ∧
      ∀ password' : String, password' ≠ "a" →
        (∀ pw1 pw2 : String,
          kdfFor kdfZero kdfZero "argon2id" pw1 (List.replicate 16 0) 1 65536 4 32 =
            kdfFor kdfZero kdfZero "argon2id" pw2 (List.replicate 16 0) 1 65536 4 32 →
            pw1 = pw2) →
        Verify kdfZero kdfZero password' S = (false, none) :=
  claim1_hash_verify kdfZero kdfZero "a"
    { Memory := 65536, Iterations := 1, Parallelism := 4,
      SaltLength := 16, KeyLength := 32, Mode := ModeArgon2id }
    (List.replicate 16 0) (Or.inr (Or.inl rfl))
    (by decide) (by decide) (by decide) (by decide) (by decide) (by decide)
    (by decide) (by decide) (by decide) (by decide)

end GoArgon
